import Mathlib

/-!
Verification development for the release-verification pipeline
(`verify_release.py`).  The Python source is shallowly embedded: each
component becomes a pure Lean function over explicit inputs (file
contents, filesystem snapshots, external command results), and the
claims about the pipeline are settled as theorems about those functions.
-/

namespace VerifyRelease

/-! Character and string helpers (Python semantics) -/

/-- Matches the regex character class `[a-fA-F0-9]` used in `verify_hashes`. -/
def isHexCh (c : Char) : Bool :=
  (decide ('a' ≤ c) && decide (c ≤ 'f')) ||
  (decide ('A' ≤ c) && decide (c ≤ 'F')) ||
  (decide ('0' ≤ c) && decide (c ≤ '9'))

/-- ASCII whitespace as stripped by Python `str.strip()`. -/
def isPySpace (c : Char) : Bool :=
  c == ' ' || c == '\t' || c == '\n' || c == '\r' || c == '\x0b' || c == '\x0c'

/-- Python `str.strip()` on a character list: drop leading and trailing whitespace. -/
def stripChars (l : List Char) : List Char :=
  ((l.dropWhile isPySpace).reverse.dropWhile isPySpace).reverse

/-- Python `content.split(chr(58), 1)[1]` when a colon is present, else the whole
content: everything after the first colon. Mirrors lines 60-63 of `verify_hashes`. -/
def afterColon (l : List Char) : List Char :=
  if l.contains ':' then ((l.dropWhile (fun c => c != ':')).tail) else l

/-- Does `l` start with `p`? -/
def seqStartsWith : List Char → List Char → Bool
  | [], _ => true
  | _ :: _, [] => false
  | p :: ps, c :: cs => p == c && seqStartsWith ps cs

/-- Python substring containment `pat in l` on character lists. -/
def seqContains (l pat : List Char) : Bool :=
  match l with
  | [] => pat.isEmpty
  | _ :: cs => seqStartsWith pat (l) || seqContains cs pat

/-- Does `l` end with `suf`? -/
def endsWithSeq (l suf : List Char) : Bool :=
  seqStartsWith suf.reverse l.reverse

/-- Python `s.lower()` restricted to its ASCII action, which is all the digest
logic relies on. -/
def lowerStr (s : String) : String := String.mk (s.data.map Char.toLower)

/-- Python single-character `str.split(sep)`: split into the (possibly empty)
chunks between occurrences of `sep`; the empty string yields one empty chunk. -/
def splitOnCh (sep : Char) : List Char → List (List Char)
  | [] => [[]]
  | c :: cs =>
    let r := splitOnCh sep cs
    if c == sep then [] :: r
    else
      match r with
      | h :: t => (c :: h) :: t
      | [] => [[c]]

/-- String-level wrapper of `splitOnCh`. -/
def splitStr (sep : Char) (s : String) : List String :=
  (splitOnCh sep s.data).map String.mk

/-! HashVerifier (`verify_hashes`, lines 24-82)

`verify_one_hash` embeds the body of the per-sidecar loop from the point
where the digest command has succeeded (line 55): `hash_num` is the
numeric part of the sidecar suffix, `actualRaw` the first word of the
digest command output, `content` the raw sidecar file text. -/

/-- Expected hex length: 40 when the suffix is 1, `int(hash_num) // 4` otherwise;
`none` models the `ValueError` from `int()` (caught, yielding `matched = false`). -/
def expectedLenOf (hash_num : String) : Option Nat :=
  if hash_num = "1" then some 40
  else (hash_num.toNat?).map (fun n => n / 4)

/-- One digest-sidecar verdict, from `verify_hashes` lines 55-78: lower-case the
actual digest, strip the sidecar text, drop everything up to the first colon if
one is present, collect ALL hexadecimal characters of the remainder in order,
and compare the first N of them (lower-cased) with the actual digest; fewer
than N hex characters means `matched = false`. -/
def verify_one_hash (hash_num actualRaw content : String) : Bool :=
  match expectedLenOf hash_num with
  | none => false
  | some n =>
    let actual := lowerStr actualRaw
    let hash_part := afterColon (stripChars content.data)
    let hex_chars := hash_part.filter isHexCh
    if n ≤ hex_chars.length then
      actual == String.mk ((hex_chars.take n).map Char.toLower)
    else false

/-- Maximal runs of hexadecimal characters, accumulator version. -/
def hexRunsAux : List Char → List Char → List (List Char)
  | [], acc => if acc.isEmpty then [] else [acc.reverse]
  | c :: cs, acc =>
    if isHexCh c then hexRunsAux cs (c :: acc)
    else if acc.isEmpty then hexRunsAux cs []
    else acc.reverse :: hexRunsAux cs []

/-- Maximal runs of hexadecimal characters of a string, in order. -/
def hexRuns (l : List Char) : List (List Char) := hexRunsAux l []

/-- Modelled from the spec wording of C2: the FIRST maximal run of hexadecimal
characters whose length is at least `n`, truncated to exactly `n`. -/
def firstHexRunSpec (n : Nat) (l : List Char) : Option (List Char) :=
  ((hexRuns l).find? (fun r => n ≤ r.length)).map (fun r => r.take n)

/-- Modelled from the spec wording of C2: `matched` computed with the
first-long-enough-run extraction rule instead of collecting all hex characters. -/
def matchedSpecC2 (hash_num actualRaw content : String) : Bool :=
  match expectedLenOf hash_num with
  | none => false
  | some n =>
    match firstHexRunSpec n (afterColon (stripChars content.data)) with
    | some run => lowerStr actualRaw == String.mk (run.map Char.toLower)
    | none => false

/-- Amended extraction rule, written over the run decomposition: concatenate
ALL maximal hex runs (equivalently: every hex character of the payload, in
order) and use the first `n` of the result. -/
def matchedAmendedC2 (hash_num actualRaw content : String) : Bool :=
  match expectedLenOf hash_num with
  | none => false
  | some n =>
    let allHex := (hexRuns (afterColon (stripChars content.data))).flatten
    if n ≤ allHex.length then
      lowerStr actualRaw == String.mk ((allHex.take n).map Char.toLower)
    else false

/-! SignatureVerifier (`verify_gpg`, lines 97-148)

The external effects inside the failure branch (printing the failure
reason, backing up an existing `KEYS` file, fetching the key bundle) are
recorded as an action trace. The subprocess invocation of `gpg` is an
input: `none` models the call itself raising an exception, `some rc` a
completed call with return code `rc`. -/

/-- Side effects of the GPG failure branch, in order of occurrence. -/
inductive GpgAction
  | reportFailure
  | backupKeys
  | fetchKeys (url : String)
deriving DecidableEq, Repr

/-- Key-bundle URL derivation from the path segments of the staging URL
(`verify_gpg` lines 115-126): both a `dist` and a `dev` segment must be
present; the first `dev` segment must be followed by at least one segment;
if that next segment is `incubator` and another segment follows, the project
is the segment two after `dev`, otherwise the segment right after `dev`. -/
def deriveKeysUrlParts (parts : List String) : Option String :=
  if parts.contains "dist" && parts.contains "dev" then
    let devIndex := parts.indexOf "dev"
    if devIndex + 1 < parts.length then
      if parts.getD (devIndex + 1) "" == "incubator" && devIndex + 2 < parts.length then
        some ("https://downloads.apache.org/incubator/" ++ parts.getD (devIndex + 2) "" ++ "/KEYS")
      else
        some ("https://downloads.apache.org/" ++ parts.getD (devIndex + 1) "" ++ "/KEYS")
    else none
  else none

/-- Key-bundle URL derivation from the staging URL, splitting on the slash
character as `base_url.split` does. -/
def deriveKeysUrl (base_url : String) : Option String :=
  deriveKeysUrlParts (splitStr '/' base_url)

/-- Embeds `verify_gpg`: `none` (Python `None`) when no `.asc` sidecar exists;
`some true` when the gpg call returns 0; `some false` when it returns non-zero
(after reporting the failure and attempting the key-bundle fallback) or when
invoking gpg itself raises an exception (no report, no fallback). -/
def verify_gpg (ascExists : Bool) (runResult : Option Int) (keysExists : Bool)
    (base_url : String) : Option Bool × List GpgAction :=
  if !ascExists then (none, [])
  else
    match runResult with
    | none => (some false, [])
    | some rc =>
      if rc = 0 then (some true, [])
      else
        match deriveKeysUrl base_url with
        | some keys_url =>
          (some false,
            GpgAction.reportFailure ::
              ((if keysExists then [GpgAction.backupKeys] else []) ++
                [GpgAction.fetchKeys keys_url]))
        | none => (some false, [GpgAction.reportFailure])

/-! ArchiveInspector (`extract_and_check_license`, lines 150-194)

Inputs: `extraction` is `none` when `tarfile.open`/`extractall` raises
(corrupt archive, traversal attempt, unreadable format) and `some members`
on success; `fileAt` tells which extracted paths exist; `sizeAt` gives file
sizes; `readAt` gives a file's text (`none` when reading raises). Each
output field is `some b` for a Python boolean and `none` for Python `None`. -/

/-- The result triple `(has_license, has_notice, notice_has_current_year)`. -/
def extract_and_check_license (extraction : Option (List String))
    (fileAt : String → Bool) (sizeAt : String → Nat)
    (readAt : String → Option String) (currentYear : String) :
    Option Bool × Option Bool × Option Bool :=
  match extraction with
  | none => (some false, some false, some false)
  | some [] => (none, none, none)
  | some (m :: _) =>
    let top_dir := (splitStr '/' m).headD ""
    let license_path := ["LICENSE", "LICENSE.txt"].find?
      (fun nm => fileAt (top_dir ++ "/" ++ nm))
    let has_license := license_path.isSome
    let notice_path := ["NOTICE", "NOTICE.txt"].find?
      (fun nm => fileAt (top_dir ++ "/" ++ nm) && decide (0 < sizeAt (top_dir ++ "/" ++ nm)))
    let has_notice := notice_path.isSome
    let notice_has_current_year :=
      match notice_path with
      | some nm =>
        match readAt (top_dir ++ "/" ++ nm) with
        | some content => seqContains content.data currentYear.data
        | none => false
      | none => false
    (some has_license, some has_notice, some notice_has_current_year)

/-- Report rendering of a tri-state field (`main` lines 310-312):
Python truthiness distinguishes `True`, `False` and `None`. -/
def licenseMark : Option Bool → String
  | some true => "✓"
  | some false => "✗"
  | none => "N/A"

/-! Cleanup model (`cleanup`, lines 196-236)

The working directory is a snapshot: top-level regular files, top-level
directories, and for each archive file the member list `tarfile` would
report (`none` when opening raises, which `cleanup` swallows). -/

/-- Top-level view of the working directory. -/
structure FS where
  files : List String
  dirs : List String
  tarMembers : String → Option (List String)

/-- Glob `*.tgz` or `*.tar.gz`. -/
def isArchiveName (nm : String) : Bool :=
  endsWithSeq nm.data ".tgz".data || endsWithSeq nm.data ".tar.gz".data

/-- Union of the cleanup globs `*.tgz`, `*.tar.gz`, `*.asc`, `*.sha*`. -/
def isCleanupFile (nm : String) : Bool :=
  isArchiveName nm || endsWithSeq nm.data ".asc".data || seqContains nm.data ".sha".data

/-- The incidental files removed when present (lines 226-229). -/
def incidentalNames : List String := ["index.html", "robots.txt", "KEYS", "KEYS.bak"]

/-- The set of top-level directory names recoverable from the member lists of
the archives currently present (lines 201-211); unreadable archives are skipped. -/
def extractedDirs (fs : FS) : List String :=
  ((fs.files.filter isArchiveName).filterMap (fun a =>
    match fs.tarMembers a with
    | some (m :: _) => some ((splitStr '/' m).headD "")
    | _ => none)).eraseDups

/-- Embeds `cleanup`: remove recovered extracted directories, every file matching the
four globs, and every incidental file present; return the new snapshot and the
removal report (empty report prints the nothing-to-clean message). -/
def cleanup (fs : FS) : FS × List String :=
  let removedDirs := (extractedDirs fs).filter (fun d => fs.dirs.contains d)
  let dirs1 := fs.dirs.filter (fun d => !(removedDirs.contains d))
  let removedFiles := fs.files.filter isCleanupFile
  let files1 := fs.files.filter (fun f => !(isCleanupFile f))
  let removedInc := incidentalNames.filter (fun f => files1.contains f)
  let files2 := files1.filter (fun f => !(removedInc.contains f))
  ({ files := files2, dirs := dirs1, tarMembers := fs.tarMembers },
    removedDirs.map (fun d => d ++ "/") ++ removedFiles ++ removedInc)

/-! ReportGenerator and main (`main`, lines 238-346)

One record per archive that is locally present after the download loop,
mirroring the dict built at lines 287-294. The verified subsequence is the
filter at lines 317-320: all hash verdicts present and true, and the GPG
result truthy (i.e. `some true`). -/

/-- Per-archive verification record. -/
structure ArchResult where
  file : String
  hashes : List (String × Bool)
  gpg : Option Bool
  license : Option Bool
  notice : Option Bool
  noticeYear : Option Bool
deriving DecidableEq, Repr

/-- Lines 318-319: `result` has a non-empty hash dict whose values are all
true, and a truthy GPG field. -/
def verifiedPred (r : ArchResult) : Bool :=
  !r.hashes.isEmpty && r.hashes.all (fun p => p.2) && r.gpg == some true

/-- The verified subsequence, as file names in record order. -/
def verifiedFiles (results : List ArchResult) : List String :=
  (results.filter verifiedPred).map (fun r => r.file)

/-- The files named in the vote-response listing (lines 329-343): records
whose file name occurs in `verifiedFiles`. -/
def voteListed (results : List ArchResult) : List String :=
  (results.filter (fun r => (verifiedFiles results).contains r.file)).map
    (fun r => r.file)

/-- External world of one `main` run: the argument vector after the program
name, the directory-listing fetch (`none` when `urlopen` raises; otherwise the
regex-extracted file names), which files already exist locally, which
downloads succeed, and the per-archive component results. -/
structure Env where
  args : List String
  listing : Option (List String)
  preExists : String → Bool
  downloadOk : String → Bool
  hashesOf : String → List (String × Bool)
  gpgOf : String → Option Bool
  licenseOf : String → Option Bool × Option Bool × Option Bool

/-- Outcome of `main`: which exit path was taken, with the report data on the
normal path. -/
inductive MainOutcome
  | cleanupDone
  | usageError
  | listingFetchError
  | noFiles
  | report (results : List ArchResult) (verified : List String)
deriving DecidableEq, Repr

/-- Process exit status of each outcome (`sys.exit(1)` at lines 246, 256, 263;
normal return otherwise). -/
def exitCode : MainOutcome → Nat
  | .usageError => 1
  | .listingFetchError => 1
  | .noFiles => 1
  | _ => 0

/-- The record built for one present archive (lines 281-294). -/
def mkRecord (env : Env) (a : String) : ArchResult :=
  { file := a
    hashes := env.hashesOf a
    gpg := env.gpgOf a
    license := (env.licenseOf a).1
    notice := (env.licenseOf a).2.1
    noticeYear := (env.licenseOf a).2.2 }

/-- After the download loop a file is locally present iff it pre-existed or
its download succeeded (lines 266-271). -/
def presentAfterDownload (env : Env) (f : String) : Bool :=
  env.preExists f || env.downloadOk f

/-- Embeds `main` (lines 238-346): exactly one argument equal to `--cleanup` runs
cleanup; any other argument count is a usage error; otherwise fetch the
listing (exit 1 on failure or when no files were found), download, and build
one record per locally present archive. -/
def main_run (env : Env) : MainOutcome :=
  if env.args == ["--cleanup"] then .cleanupDone
  else if env.args.length != 1 then .usageError
  else
    match env.listing with
    | none => .listingFetchError
    | some files =>
      if files.isEmpty then .noFiles
      else
        let archives := files.filter isArchiveName
        let present := archives.filter (presentAfterDownload env)
        let results := present.map (mkRecord env)
        .report results (verifiedFiles results)

/-! Concrete instances used to exercise the theorems on closed inputs. -/

/-- Record of a fully verified archive. -/
def recC1 : ArchResult :=
  { file := "x-1.0.tgz", hashes := [("sha512", true)], gpg := some true,
    license := some true, notice := some true, noticeYear := some true }

/-- Record of an archive with no signature sidecar and matching digests. -/
def recC4 : ArchResult :=
  { file := "x-1.0.tgz", hashes := [("sha512", true)], gpg := none,
    license := some true, notice := some true, noticeYear := some true }

/-- Environment with a well-formed single-URL invocation whose directory
listing fetch fails. -/
def envC5 : Env :=
  { args := ["https://dist.apache.org/repos/dist/dev/foo/1.0"], listing := none,
    preExists := fun _ => false, downloadOk := fun _ => false,
    hashesOf := fun _ => [], gpgOf := fun _ => none,
    licenseOf := fun _ => (none, none, none) }

/-- Environment where one archive download succeeds and the other fails. -/
def envC5b : Env :=
  { envC5 with
    listing := some ["x-1.0.tgz", "y-1.0.tgz"],
    downloadOk := fun f => f == "x-1.0.tgz" }

/-- Environment for a run whose only archive fails extraction. -/
def envC6 : Env :=
  { args := ["https://dist.apache.org/repos/dist/dev/foo/1.0"],
    listing := some ["x-1.0.tgz"],
    preExists := fun _ => true, downloadOk := fun _ => false,
    hashesOf := fun _ => [("sha512", true)], gpgOf := fun _ => some true,
    licenseOf := fun _ => (some false, some false, some false) }

/-- Path segments before the `dev` segment of the incubator example URL. -/
def prefC3 : List String := ["https:", "", "dist.apache.org", "repos", "dist"]

/-- Path segments after the `dev` segment of the incubator example URL. -/
def restC3 : List String := ["incubator", "foo", "1.0"]

/-- Argument vector containing `--cleanup` along with a second argument. -/
def envC7 : Env := { envC5 with args := ["--cleanup", "extra"] }

/-- Single staging-URL invocation. -/
def envC7b : Env := { envC5 with args := ["https://u"] }

/-! Helper lemmas -/

theorem hexRunsAux_flatten (l : List Char) :
    ∀ acc, (hexRunsAux l acc).flatten = acc.reverse ++ l.filter isHexCh := by
  induction l with
  | nil =>
    intro acc
    by_cases h : acc.isEmpty
    · simp [hexRunsAux, h, List.isEmpty_iff.mp h]
    · simp [hexRunsAux, h]
  | cons c cs ih =>
    intro acc
    by_cases hc : isHexCh c
    · simp [hexRunsAux, hc, ih, List.filter_cons]
    · by_cases ha : acc.isEmpty
      · simp [hexRunsAux, hc, ha, ih, List.filter_cons, List.isEmpty_iff.mp ha]
      · simp [hexRunsAux, hc, ha, ih, List.filter_cons]

theorem hexRuns_flatten (l : List Char) :
    (hexRuns l).flatten = l.filter isHexCh := by
  simpa using hexRunsAux_flatten l []

/-! Claims -/

/-- C2 counterexample: a sidecar whose payload is forty hex characters broken
by a space into two runs of twenty. The code accepts it (it collects all hex
characters), while the first-long-enough-run rule stated by the claim finds no
run of length at least 40 and would report a mismatch. -/
theorem C2_counterexample :
    verify_one_hash "1" "aaaaaaaaaaaaaaaaaaaabbbbbbbbbbbbbbbbbbbb"
        "aaaaaaaaaaaaaaaaaaaa bbbbbbbbbbbbbbbbbbbb" = true ∧
    matchedSpecC2 "1" "aaaaaaaaaaaaaaaaaaaabbbbbbbbbbbbbbbbbbbb"
        "aaaaaaaaaaaaaaaaaaaa bbbbbbbbbbbbbbbbbbbb" = false := by
  exact ⟨by decide, by decide⟩

/-- C2 amended: the expected digest is built from ALL hexadecimal characters
of the payload in order (equivalently, the concatenation of all maximal hex
runs), not from the first single run of sufficient length; the first N of them
(lower-cased) are compared with the lower-cased actual digest, and fewer than
N hex characters in total yields `matched = false`. -/
theorem C2_expected_digest_all_hex (hash_num actualRaw content : String) :
    verify_one_hash hash_num actualRaw content =
      matchedAmendedC2 hash_num actualRaw content := by
  unfold verify_one_hash matchedAmendedC2
  cases expectedLenOf hash_num with
  | none => rfl
  | some n => simp [hexRuns_flatten]

/-- C3 counterexample: a staging URL whose path contains a `dev` segment but
no `dist` segment. The claim promises a derived key-bundle URL, yet the code
derives none because it also requires a `dist` segment. -/
theorem C3_counterexample :
    (splitStr '/' "https://example.org/dev/foo/1.0").contains "dev" = true ∧
    deriveKeysUrl "https://example.org/dev/foo/1.0" = none := by
  exact ⟨by decide, by decide⟩

/-- C3 amended: when the split URL has both a `dist` and a `dev` segment, with
segments `rest` following the first `dev`: if `rest` starts with `incubator`
followed by a further segment `p`, the bundle URL is
`https://downloads.apache.org/incubator/p/KEYS`; otherwise it is
`https://downloads.apache.org/q/KEYS` for `q` the first segment of `rest`
(so a final `incubator` segment itself becomes the project name); no segment
after `dev` means no URL. Both of the claim's examples hold. -/
theorem C3_keys_url_derivation (pre rest : List String)
    (hdev : "dev" ∉ pre) (hdist : "dist" ∈ pre ++ "dev" :: rest) :
    (deriveKeysUrlParts (pre ++ "dev" :: rest) =
      if rest = [] then none
      else if rest.headD "" = "incubator" ∧ rest.tail ≠ [] then
        some ("https://downloads.apache.org/incubator/" ++ rest.tail.headD "" ++ "/KEYS")
      else
        some ("https://downloads.apache.org/" ++ rest.headD "" ++ "/KEYS")) ∧
    deriveKeysUrl "https://dist.apache.org/repos/dist/dev/incubator/foo/1.0/" =
      some "https://downloads.apache.org/incubator/foo/KEYS" ∧
    deriveKeysUrl "https://dist.apache.org/repos/dist/dev/foo/1.0/" =
      some "https://downloads.apache.org/foo/KEYS" := by
  refine ⟨?_, by decide, by decide⟩
  have hcont1 : (pre ++ "dev" :: rest).contains "dist" = true := by
    simpa [List.elem_iff] using hdist
  have hcont2 : (pre ++ "dev" :: rest).contains "dev" = true := by
    simp [List.elem_iff]
  have hidx : List.indexOf "dev" (pre ++ "dev" :: rest) = pre.length := by
    rw [List.indexOf_append_of_not_mem hdev, List.indexOf_cons_self]
    omega
  simp only [deriveKeysUrlParts, hcont1, hcont2, hidx, Bool.and_self, if_true]
  cases rest with
  | nil =>
    rw [if_neg (by simp), if_pos rfl]
  | cons r rs =>
    have hlen : pre.length + 1 < (pre ++ "dev" :: r :: rs).length := by
      simp only [List.length_append, List.length_cons]
      omega
    have hget1 : (pre ++ "dev" :: r :: rs).getD (pre.length + 1) "" = r := by
      rw [List.getD_append_right _ _ _ _ (by omega), Nat.add_sub_cancel_left]
      rfl
    rw [if_pos hlen, hget1, if_neg (List.cons_ne_nil r rs)]
    by_cases hr : r = "incubator"
    · subst hr
      cases rs with
      | nil =>
        rw [if_neg (by simp), if_neg (by simp)]
        rfl
      | cons p ps =>
        have hlen2 : pre.length + 2 < (pre ++ "dev" :: "incubator" :: p :: ps).length := by
          simp only [List.length_append, List.length_cons]
          omega
        have hget2 : (pre ++ "dev" :: "incubator" :: p :: ps).getD (pre.length + 2) "" = p := by
          rw [List.getD_append_right _ _ _ _ (by omega), Nat.add_sub_cancel_left]
          rfl
        rw [if_pos (by simp [hlen2]), hget2, if_pos (by simp)]
        rfl
    · rw [if_neg (by simp [hr]), if_neg (by simp [hr])]
      rfl

/-- C3 witness: the amended derivation applied to the segments of the
incubator example URL. -/
theorem C3_keys_url_derivation_witness :
    ("dev" ∉ prefC3 ∧ "dist" ∈ prefC3 ++ "dev" :: restC3) ∧
    (deriveKeysUrlParts (prefC3 ++ "dev" :: restC3) =
      if restC3 = [] then none
      else if restC3.headD "" = "incubator" ∧ restC3.tail ≠ [] then
        some ("https://downloads.apache.org/incubator/" ++ restC3.tail.headD "" ++ "/KEYS")
      else
        some ("https://downloads.apache.org/" ++ restC3.headD "" ++ "/KEYS")) ∧
    deriveKeysUrl "https://dist.apache.org/repos/dist/dev/incubator/foo/1.0/" =
      some "https://downloads.apache.org/incubator/foo/KEYS" ∧
    deriveKeysUrl "https://dist.apache.org/repos/dist/dev/foo/1.0/" =
      some "https://downloads.apache.org/foo/KEYS" := by
  exact ⟨⟨by decide, by decide⟩,
    C3_keys_url_derivation prefC3 restC3 (by decide) (by decide)⟩

/-- C1: a record is in the verified subsequence iff its hash dict is
non-empty, every digest verdict in it is true, and its GPG result is a pass;
and a listed record's file appears in the vote-response listing exactly when
it appears among the verified files. -/
theorem C1_verified_subsequence (results : List ArchResult) (r : ArchResult)
    (hr : r ∈ results) :
    (r ∈ results.filter verifiedPred ↔
      (r.hashes ≠ [] ∧ (∀ p ∈ r.hashes, p.2 = true) ∧ r.gpg = some true)) ∧
    (r.file ∈ verifiedFiles results ↔ r.file ∈ voteListed results) := by
  constructor
  · rw [List.mem_filter]
    simp [hr, verifiedPred, List.all_eq_true, and_assoc]
  · constructor
    · intro h
      refine List.mem_map.mpr ⟨r, List.mem_filter.mpr ⟨hr, ?_⟩, rfl⟩
      simpa [verifiedFiles, List.elem_iff] using h
    · intro h
      obtain ⟨r2, hr2, hfile⟩ := List.mem_map.mp h
      obtain ⟨_, hpred⟩ := List.mem_filter.mp hr2
      rw [← hfile]
      simpa [List.elem_iff] using hpred

/-- C1 witness: a single fully verified record. -/
theorem C1_verified_subsequence_witness :
    recC1 ∈ [recC1] ∧
    ((recC1 ∈ [recC1].filter verifiedPred ↔
      (recC1.hashes ≠ [] ∧ (∀ p ∈ recC1.hashes, p.2 = true) ∧
        recC1.gpg = some true)) ∧
    (recC1.file ∈ verifiedFiles [recC1] ↔ recC1.file ∈ voteListed [recC1])) :=
  ⟨by decide, C1_verified_subsequence [recC1] recC1 (by decide)⟩

/-- C4: the signature outcome is `None` exactly when no `.asc` sidecar exists,
and a record whose GPG field is `None` is never counted as verified. -/
theorem C4_signature_not_applicable (ascExists : Bool) (runResult : Option Int)
    (keysExists : Bool) (base_url : String) (r : ArchResult)
    (h : r.gpg = none) :
    ((verify_gpg ascExists runResult keysExists base_url).1 = none ↔
      ascExists = false) ∧
    verifiedPred r = false := by
  constructor
  · cases ascExists with
    | false => simp [verify_gpg]
    | true =>
      cases runResult with
      | none => simp [verify_gpg]
      | some rc =>
        by_cases hrc : rc = 0
        · simp [verify_gpg, hrc]
        · cases hd : deriveKeysUrl base_url <;> simp [verify_gpg, hrc, hd]
  · simp [verifiedPred, h]

/-- C4 witness: no sidecar yields `None`, and the digests-match-but-no-sidecar
record is not verified. -/
theorem C4_signature_not_applicable_witness :
    recC4.gpg = none ∧
    (((verify_gpg false none false "u").1 = none ↔ false = false) ∧
      verifiedPred recC4 = false) :=
  ⟨rfl, C4_signature_not_applicable false none false "u" recC4 rfl⟩

/-- C10: when the gpg invocation itself raises, the outcome is a plain fail
with NO reported reason and NO key-bundle fallback actions; any failure-branch
action at all implies the invocation completed with a non-zero return code. -/
theorem C10_gpg_exception_behavior (runResult : Option Int) (keysExists : Bool)
    (base_url : String)
    (h : (verify_gpg true runResult keysExists base_url).2 ≠ []) :
    verify_gpg true none keysExists base_url = (some false, []) ∧
    ∃ rc, runResult = some rc ∧ rc ≠ 0 := by
  refine ⟨rfl, ?_⟩
  cases runResult with
  | none => simp [verify_gpg] at h
  | some rc =>
    by_cases hrc : rc = 0
    · subst hrc
      simp [verify_gpg] at h
    · exact ⟨rc, rfl, hrc⟩

/-- C10 witness: a completed gpg call with return code 2 and no derivable
key-bundle URL. -/
theorem C10_gpg_exception_behavior_witness :
    (verify_gpg true (some 2) false "u").2 ≠ [] ∧
    (verify_gpg true none false "u" = (some false, []) ∧
      ∃ rc, (some 2 : Option Int) = some rc ∧ rc ≠ 0) :=
  ⟨by decide, C10_gpg_exception_behavior (some 2) false "u" (by decide)⟩

/-- Exhaustive description of the exit paths of `main_run`. -/
theorem main_run_cases (env : Env) :
    (env.args = ["--cleanup"] ∧ main_run env = .cleanupDone) ∨
    (env.args ≠ ["--cleanup"] ∧ env.args.length ≠ 1 ∧
      main_run env = .usageError) ∨
    (env.args ≠ ["--cleanup"] ∧ env.args.length = 1 ∧ env.listing = none ∧
      main_run env = .listingFetchError) ∨
    (env.args ≠ ["--cleanup"] ∧ env.args.length = 1 ∧ env.listing = some [] ∧
      main_run env = .noFiles) ∨
    (∃ files, env.args ≠ ["--cleanup"] ∧ env.args.length = 1 ∧
      env.listing = some files ∧ files ≠ [] ∧
      main_run env = .report
        (((files.filter isArchiveName).filter (presentAfterDownload env)).map
          (mkRecord env))
        (verifiedFiles
          (((files.filter isArchiveName).filter (presentAfterDownload env)).map
            (mkRecord env)))) := by
  by_cases h1 : env.args = ["--cleanup"]
  · exact Or.inl ⟨h1, by simp [main_run, h1]⟩
  · have e1 : (env.args == ["--cleanup"]) = false := beq_eq_false_iff_ne.mpr h1
    by_cases h2 : env.args.length = 1
    · have e2 : (env.args.length != 1) = false := by simp [h2]
      cases hls : env.listing with
      | none =>
        exact Or.inr (Or.inr (Or.inl ⟨h1, h2, rfl, by simp [main_run, e1, e2, hls]⟩))
      | some files =>
        cases files with
        | nil =>
          exact Or.inr (Or.inr (Or.inr (Or.inl
            ⟨h1, h2, rfl, by simp [main_run, e1, e2, hls]⟩)))
        | cons f fs =>
          refine Or.inr (Or.inr (Or.inr (Or.inr
            ⟨f :: fs, h1, h2, rfl, by simp, ?_⟩)))
          simp [main_run, e1, e2, hls]
    · have e2 : (env.args.length != 1) = true := bne_iff_ne.mpr h2
      exact Or.inr (Or.inl ⟨h1, h2, by simp [main_run, e1, e2]⟩)

/-- Value of `main_run` on the normal reporting path. -/
theorem main_run_report (env : Env) (files : List String)
    (hl : env.listing = some files) (h1 : env.args ≠ ["--cleanup"])
    (h2 : env.args.length = 1) (h3 : files ≠ []) :
    main_run env = .report
      (((files.filter isArchiveName).filter (presentAfterDownload env)).map
        (mkRecord env))
      (verifiedFiles
        (((files.filter isArchiveName).filter (presentAfterDownload env)).map
          (mkRecord env))) := by
  have e1 : (env.args == ["--cleanup"]) = false := beq_eq_false_iff_ne.mpr h1
  have e2 : (env.args.length != 1) = false := by simp [h2]
  have e3 : files.isEmpty = false := List.isEmpty_eq_false.mpr h3
  simp [main_run, e1, e2, hl, e3]

/-- C5 counterexample: a syntactically valid single-URL invocation whose
directory-listing fetch raises. The claim allows a non-zero exit status only
for configuration-level failure, but this run exits with status 1 on a
network (listing-fetch) failure. -/
theorem C5_counterexample :
    envC5.args.length = 1 ∧
    main_run envC5 = .listingFetchError ∧
    exitCode (main_run envC5) = 1 ∧
    main_run envC5 ≠ .usageError := by
  exact ⟨by decide, by decide, by decide, by decide⟩

/-- C5 amended: the exit status is non-zero exactly on a usage error, a
directory-listing fetch failure, or an empty listing (so a listing-level
network failure does abort the run); an individual file-fetch failure is
isolated: on the reporting path an archive of the listing is processed iff it
pre-existed or its own download succeeded, independently of every other
download. -/
theorem C5_exit_codes_and_isolation (env env2 : Env) (files : List String)
    (a : String) (hl : env2.listing = some files) (h3 : files ≠ [])
    (h2 : env2.args.length = 1) (h1 : env2.args ≠ ["--cleanup"])
    (ha : a ∈ files) (harch : isArchiveName a = true) :
    (exitCode (main_run env) ≠ 0 ↔
      (main_run env = .usageError ∨ main_run env = .listingFetchError ∨
        main_run env = .noFiles)) ∧
    ∃ results verified, main_run env2 = .report results verified ∧
      (mkRecord env2 a ∈ results ↔ presentAfterDownload env2 a = true) := by
  constructor
  · rcases main_run_cases env with ⟨_, ho⟩ | ⟨_, _, ho⟩ | ⟨_, _, _, ho⟩ |
      ⟨_, _, _, ho⟩ | ⟨files2, _, _, _, _, ho⟩ <;> rw [ho] <;> simp [exitCode]
  · refine ⟨_, _, main_run_report env2 files hl h1 h2 h3, ?_⟩
    constructor
    · intro hmem
      obtain ⟨b, hb, heq⟩ := List.mem_map.mp hmem
      have hba : b = a := congrArg ArchResult.file heq
      subst hba
      exact (List.mem_filter.mp hb).2
    · intro hp
      exact List.mem_map.mpr
        ⟨a, List.mem_filter.mpr ⟨List.mem_filter.mpr ⟨ha, harch⟩, hp⟩, rfl⟩

/-- C5 witness: two listed archives, one downloading successfully and one
failing. -/
theorem C5_exit_codes_and_isolation_witness :
    (envC5b.listing = some ["x-1.0.tgz", "y-1.0.tgz"] ∧
      (["x-1.0.tgz", "y-1.0.tgz"] : List String) ≠ [] ∧
      envC5b.args.length = 1 ∧ envC5b.args ≠ ["--cleanup"] ∧
      "x-1.0.tgz" ∈ (["x-1.0.tgz", "y-1.0.tgz"] : List String) ∧
      isArchiveName "x-1.0.tgz" = true) ∧
    ((exitCode (main_run envC5b) ≠ 0 ↔
      (main_run envC5b = .usageError ∨ main_run envC5b = .listingFetchError ∨
        main_run envC5b = .noFiles)) ∧
    ∃ results verified, main_run envC5b = .report results verified ∧
      (mkRecord envC5b "x-1.0.tgz" ∈ results ↔
        presentAfterDownload envC5b "x-1.0.tgz" = true)) :=
  ⟨⟨rfl, by decide, by decide, by decide, by decide, by decide⟩,
    C5_exit_codes_and_isolation envC5b envC5b ["x-1.0.tgz", "y-1.0.tgz"]
      "x-1.0.tgz" rfl (by decide) (by decide) (by decide) (by decide) (by decide)⟩

/-- C6 counterexample: on extraction failure the code returns the Python
triple `(False, False, False)`, which is NOT the indeterminate triple
`(None, None, None)` produced when extraction yields no members, and it
renders as a failing mark rather than as not-available. -/
theorem C6_counterexample :
    extract_and_check_license none (fun _ => false) (fun _ => 0)
        (fun _ => none) "2026" = (some false, some false, some false) ∧
    extract_and_check_license (some []) (fun _ => false) (fun _ => 0)
        (fun _ => none) "2026" = (none, none, none) ∧
    licenseMark (some false) = "✗" ∧ licenseMark none = "N/A" ∧
    ((some false, some false, some false) :
      Option Bool × Option Bool × Option Bool) ≠ (none, none, none) := by
  exact ⟨rfl, rfl, rfl, rfl, by decide⟩

/-- C6 amended: on extraction failure all three license/notice fields become
false (rendered as failing marks, unlike the indeterminate fields of an empty
extraction, which render as not-available), and processing continues: the
report still contains one record per locally present archive of the listing,
whatever the extraction outcomes were. -/
theorem C6_extraction_failure_fields (fileAt : String → Bool)
    (sizeAt : String → Nat) (readAt : String → Option String) (y : String)
    (env : Env) (files : List String)
    (hl : env.listing = some files) (h1 : env.args ≠ ["--cleanup"])
    (h2 : env.args.length = 1) (h3 : files ≠ []) :
    extract_and_check_license none fileAt sizeAt readAt y =
      (some false, some false, some false) ∧
    licenseMark (some false) = "✗" ∧ licenseMark none = "N/A" ∧
    ∃ results verified, main_run env = .report results verified ∧
      results.map (fun r => r.file) =
        (files.filter isArchiveName).filter (presentAfterDownload env) := by
  refine ⟨rfl, rfl, rfl, _, _, main_run_report env files hl h1 h2 h3, ?_⟩
  rw [List.map_map]
  have hcomp : ((fun r => ArchResult.file r) ∘ mkRecord env) = id := rfl
  rw [hcomp, List.map_id]

/-- C6 witness: a run whose only archive fails extraction. -/
theorem C6_extraction_failure_fields_witness :
    (envC6.listing = some ["x-1.0.tgz"] ∧ envC6.args ≠ ["--cleanup"] ∧
      envC6.args.length = 1 ∧ (["x-1.0.tgz"] : List String) ≠ []) ∧
    (extract_and_check_license none (fun _ => false) (fun _ => 0)
        (fun _ => none) "2026" = (some false, some false, some false) ∧
    licenseMark (some false) = "✗" ∧ licenseMark none = "N/A" ∧
    ∃ results verified, main_run envC6 = .report results verified ∧
      results.map (fun r => r.file) =
        (["x-1.0.tgz"].filter isArchiveName).filter
          (presentAfterDownload envC6)) :=
  ⟨⟨rfl, by decide, by decide, by decide⟩,
    C6_extraction_failure_fields (fun _ => false) (fun _ => 0) (fun _ => none)
      "2026" envC6 ["x-1.0.tgz"] rfl (by decide) (by decide) (by decide)⟩

/-- C7 counterexample: `--cleanup` accompanied by a second argument is a
usage error (exit status 1), not a cleanup run, so `--cleanup` is honoured
only as the sole argument. -/
theorem C7_counterexample :
    "--cleanup" ∈ envC7.args ∧
    main_run envC7 = .usageError ∧
    exitCode (main_run envC7) = 1 ∧
    main_run envC7 ≠ .cleanupDone := by
  exact ⟨by decide, by decide, by decide, by decide⟩

/-- C7 amended: cleanup runs exactly when the argument vector is the single
argument `--cleanup`; any other argument count is a usage error exiting with
status 1; a single non-cleanup argument enters the pipeline (neither cleanup
nor usage error). -/
theorem C7_cli_dispatch (env : Env) (u : String) (hu : u ≠ "--cleanup") :
    (main_run env = .cleanupDone ↔ env.args = ["--cleanup"]) ∧
    (env.args.length ≠ 1 →
      main_run env = .usageError ∧ exitCode (main_run env) = 1) ∧
    (env.args = [u] →
      main_run env ≠ .cleanupDone ∧ main_run env ≠ .usageError) := by
  rcases main_run_cases env with ⟨ha, ho⟩ | ⟨ha, hlen, ho⟩ |
    ⟨ha, hlen, _, ho⟩ | ⟨ha, hlen, _, ho⟩ | ⟨files, ha, hlen, _, _, ho⟩
  · refine ⟨by simp [ho, ha], ?_, ?_⟩
    · intro hc
      exact absurd (by simp [ha]) hc
    · intro hc
      rw [hc] at ha
      exact absurd (List.cons_eq_cons.mp ha).1 hu
  · refine ⟨by simp [ho, ha], fun _ => ⟨ho, by simp [ho, exitCode]⟩, ?_⟩
    · intro hc
      rw [hc] at hlen
      simp at hlen
  · exact ⟨by simp [ho, ha], fun hc => absurd hlen hc, fun _ => by simp [ho]⟩
  · exact ⟨by simp [ho, ha], fun hc => absurd hlen hc, fun _ => by simp [ho]⟩
  · exact ⟨by simp [ho, ha], fun hc => absurd hlen hc, fun _ => by simp [ho]⟩

/-- C7 witness: a single staging-URL argument enters the pipeline. -/
theorem C7_cli_dispatch_witness :
    ("https://u" : String) ≠ "--cleanup" ∧
    ((main_run envC7b = .cleanupDone ↔ envC7b.args = ["--cleanup"]) ∧
    (envC7b.args.length ≠ 1 →
      main_run envC7b = .usageError ∧ exitCode (main_run envC7b) = 1) ∧
    (envC7b.args = ["https://u"] →
      main_run envC7b ≠ .cleanupDone ∧ main_run envC7b ≠ .usageError)) :=
  ⟨by decide, C7_cli_dispatch envC7b "https://u" (by decide)⟩

/-- After one cleanup pass no remaining file matches any removal glob. -/
theorem cleanup_files_not_cleanupFile (fs : FS) :
    ∀ f ∈ (cleanup fs).1.files, isCleanupFile f = false := by
  intro f hf
  simp only [cleanup] at hf
  simpa using (List.mem_filter.mp (List.mem_filter.mp hf).1).2

/-- After one cleanup pass no incidental file remains. -/
theorem cleanup_files_not_incidental (fs : FS) :
    ∀ nm ∈ incidentalNames, ((cleanup fs).1.files.contains nm) = false := by
  intro nm hnm
  by_contra hb
  rw [Bool.not_eq_false] at hb
  have hmem : nm ∈ (cleanup fs).1.files := by simpa [List.elem_iff] using hb
  simp only [cleanup] at hmem
  obtain ⟨h1, h2⟩ := List.mem_filter.mp hmem
  have hmemInc : nm ∈ incidentalNames.filter
      (fun f => (fs.files.filter (fun g => !(isCleanupFile g))).contains f) :=
    List.mem_filter.mpr ⟨hnm, by simpa [List.elem_iff] using h1⟩
  have hc : (incidentalNames.filter
      (fun f => (fs.files.filter (fun g => !(isCleanupFile g))).contains f)).contains
        nm = true := by
    simpa [List.elem_iff] using hmemInc
  rw [hc] at h2
  simp at h2

/-- C8: cleanup is idempotent; a second run removes nothing, reports nothing
to remove, and leaves the directory snapshot unchanged (in particular cleanup
of an already-clean directory is a no-op). -/
theorem C8_cleanup_idempotent (fs : FS) :
    cleanup (cleanup fs).1 = ((cleanup fs).1, []) := by
  have A := cleanup_files_not_cleanupFile fs
  have B := cleanup_files_not_incidental fs
  generalize hgen : (cleanup fs).1 = fs1 at A B ⊢
  have hArch : fs1.files.filter isArchiveName = [] :=
    List.filter_eq_nil_iff.mpr (fun a ha hp => by
      have hA := A a ha
      simp [isCleanupFile, hp] at hA)
  have hED : extractedDirs fs1 = [] := by
    unfold extractedDirs
    rw [hArch]
    rfl
  have hRF : fs1.files.filter isCleanupFile = [] :=
    List.filter_eq_nil_iff.mpr (fun a ha hp => by rw [A a ha] at hp; exact absurd hp (by simp))
  have hFS : fs1.files.filter (fun f => !(isCleanupFile f)) = fs1.files :=
    List.filter_eq_self.mpr (fun a ha => by simp [A a ha])
  have hInc : incidentalNames.filter (fun f => fs1.files.contains f) = [] :=
    List.filter_eq_nil_iff.mpr (fun a ha hp => by rw [B a ha] at hp; exact absurd hp (by simp))
  simp only [cleanup, hED, hRF, hFS, hInc, List.filter_nil, List.map_nil,
    List.nil_append, List.append_nil]
  have hNil1 : fs1.files.filter (fun f => !(([] : List String).contains f)) =
      fs1.files :=
    List.filter_eq_self.mpr (fun a _ => rfl)
  have hNil2 : fs1.dirs.filter (fun d => !(([] : List String).contains d)) =
      fs1.dirs :=
    List.filter_eq_self.mpr (fun a _ => rfl)
  rw [hNil1, hNil2]

/-- Shape of `List.find?` on the two-name conventions used for license and
notice lookup. -/
theorem find?_pair_isSome {α : Type} (p : α → Bool) (a b : α) :
    (List.find? p [a, b]).isSome = (p a || p b) := by
  cases h1 : p a <;> cases h2 : p b <;> simp [List.find?, h1, h2]

/-- C9: with a successful non-empty extraction, the license declaration
counts as present iff `LICENSE` or `LICENSE.txt` exists under the top
directory regardless of size, while the notice declaration counts as present
iff `NOTICE` or `NOTICE.txt` exists there with non-zero size (so a zero-byte
notice file does not count). -/
theorem C9_license_notice_presence (m : String) (ms : List String)
    (fileAt : String → Bool) (sizeAt : String → Nat)
    (readAt : String → Option String) (y : String) :
    (extract_and_check_license (some (m :: ms)) fileAt sizeAt readAt y).1 =
      some (fileAt ((splitStr '/' m).headD "" ++ "/" ++ "LICENSE") ||
            fileAt ((splitStr '/' m).headD "" ++ "/" ++ "LICENSE.txt")) ∧
    (extract_and_check_license (some (m :: ms)) fileAt sizeAt readAt y).2.1 =
      some ((fileAt ((splitStr '/' m).headD "" ++ "/" ++ "NOTICE") &&
              decide (0 < sizeAt ((splitStr '/' m).headD "" ++ "/" ++ "NOTICE"))) ||
            (fileAt ((splitStr '/' m).headD "" ++ "/" ++ "NOTICE.txt") &&
              decide (0 < sizeAt ((splitStr '/' m).headD "" ++ "/" ++ "NOTICE.txt")))) := by
  constructor
  · simp only [extract_and_check_license, find?_pair_isSome]
  · simp only [extract_and_check_license, find?_pair_isSome]

end VerifyRelease
